import Mathlib

/-!
# Verification of an advanced vector container (`src/vector.h`)

Shallow embedding of a C++ growable-array container consisting of two
classes:

* `RawMemory<T>` — an owning handle to a raw, untyped storage arena with a
  fixed capacity and no element-lifecycle awareness;
* `Vector<T>` — a logical size plus one owned arena, driving construction,
  relocation and destruction of the elements living in slots `[0, size_)`.

The embedding has three layers, each translated from the source:

* `RawMem` — the handle/capacity view of `RawMemory<T>` (for the
  move-construction / move-assignment / `Swap` claims);
* `VectorMem` — a slot-level view where the arena is a list of
  `Option α` slots (`some` = constructed, `none` = raw memory), used to
  check which slots `Reserve` destroys; destroying (or copying from) a raw
  slot is C++ undefined behaviour and is modelled as `Option` failure;
* `Vec` — the abstract view `(elems, cap)` where `elems` is exactly the
  list of live elements in slots `[0, size_)` and `cap` is the arena
  capacity; all value-level operations of `Vector<T>` are translated here.
-/

namespace AdvVector

/-! ## Layer 1: `RawMemory<T>` as a handle plus a capacity

`buffer_` is an opaque handle: `none` models the null pointer, `some h`
models ownership of the distinct allocated block `h`. -/

/-- `RawMemory<T>`: `T* buffer_ = nullptr; size_t capacity_ = 0;`. -/
structure RawMem where
  buffer : Option Nat := none
  capacity : Nat := 0
  deriving Repr, DecidableEq

namespace RawMem

/-- A default-constructed `RawMemory`: null buffer, capacity 0. -/
def empty : RawMem := {}

/-- `RawMemory::Swap(RawMemory& other)`: `std::swap(buffer_, other.buffer_);
std::swap(capacity_, other.capacity_);`.  Returns the pair
(state of `*this`, state of `other`) after the call. -/
def swap (a b : RawMem) : RawMem × RawMem := (b, a)

/-- `RawMemory(RawMemory&& other) noexcept { Swap(other); }`.  `*this` is
default-initialized (null buffer, capacity 0) before the body runs.
Returns (the new object, state of `other` after the call). -/
def moveCtor (other : RawMem) : RawMem × RawMem :=
  RawMem.swap RawMem.empty other

/-- `RawMemory& operator=(RawMemory&& rhs) noexcept { Swap(rhs); return *this; }`.
Returns (state of `*this`, state of `rhs`) after the call. -/
def moveAssign (this_ rhs : RawMem) : RawMem × RawMem :=
  RawMem.swap this_ rhs

end RawMem

/-! ## Layer 2: slot-level view of `Vector<T>` for `Reserve`

The arena is a list of slots of length `capacity_`; a slot is `some x`
when it holds a constructed element and `none` when it is raw memory. -/

/-- Slot-level state of `Vector<T>`: the arena `data_` as a list of
`capacity_` slots, plus `size_`. -/
structure VectorMem (α : Type) where
  slots : List (Option α)
  size_ : Nat
  deriving Repr, DecidableEq

namespace VectorMem

/-- `std::destroy_n(p, n)` on the first `n` slots of an arena: every slot
in `[0, n)` must hold a constructed element (destroying raw memory is
undefined behaviour, modelled as `none`); afterwards those slots are raw. -/
def destroyN (slots : List (Option α)) (n : Nat) : Option (List (Option α)) :=
  if (slots.take n).all (·.isSome) then
    some (List.replicate (min n slots.length) none ++ slots.drop n)
  else
    none

/-- `UninitializedCopyMove(from, size, to)` reading the first `n` slots of
the old arena: each read slot must be constructed (reading raw memory is
undefined behaviour); returns the transferred elements. -/
def readN (slots : List (Option α)) (n : Nat) : Option (List α) :=
  if (slots.take n).all (·.isSome) then
    some ((slots.take n).filterMap id)
  else
    none

/-- `Vector<T>::Reserve(size_t new_capacity)`, slot level, translated line
by line:

```cpp
if (new_capacity > data_.Capacity()) {
    RawMemory<T> new_data(new_capacity);                           // all slots raw
    UninitializedCopyMove(data_.GetAddress(), size_, new_data.GetAddress());
    std::destroy_n(data_.GetAddress(), data_.Capacity());          // note: Capacity(), not size_
    data_.Swap(new_data);
}
```

`none` means the call ran into undefined behaviour (reading or destroying
a raw slot). -/
def reserve (v : VectorMem α) (newCapacity : Nat) : Option (VectorMem α) :=
  if newCapacity > v.slots.length then
    match readN v.slots v.size_ with
    | none => none
    | some moved =>
      match destroyN v.slots v.slots.length with
      | none => none
      | some _ =>
        some { slots := moved.map some ++ List.replicate (newCapacity - v.size_) none,
               size_ := v.size_ }
  else
    some v

/-- The destruction step `Reserve` would need for the claim to hold:
`std::destroy_n(data_.GetAddress(), size_)`, destroying exactly the live
slots `[0, size_)` — this is what every other reallocation site in the
source (`PushBack`, `EmplaceBack`, `Emplace`, the destructor) does. -/
def reserveClaimed (v : VectorMem α) (newCapacity : Nat) : Option (VectorMem α) :=
  if newCapacity > v.slots.length then
    match readN v.slots v.size_ with
    | none => none
    | some moved =>
      match destroyN v.slots v.size_ with
      | none => none
      | some _ =>
        some { slots := moved.map some ++ List.replicate (newCapacity - v.size_) none,
               size_ := v.size_ }
  else
    some v

end VectorMem

/-! ## Layer 3: abstract view of `Vector<T>`

`elems` is the list of live elements occupying slots `[0, size_)` of the
arena, in slot order, so `size_ = elems.length`; `cap` is
`data_.Capacity()`.  Slots `[size_, cap)` of the arena are raw memory and
carry no value, so they do not appear in the state. -/

/-- Abstract state of `Vector<T>`: live elements plus arena capacity. -/
structure Vec (α : Type) where
  elems : List α
  cap : Nat
  deriving Repr, DecidableEq

namespace Vec

/-- `Size()`: `return size_;` — the number of live elements. -/
def size (v : Vec α) : Nat := v.elems.length

/-- The capacity requested by every growth site in the source:
`(size_ == 0) ? 1 : 2 * size_`. -/
def growCap (sz : Nat) : Nat := if sz = 0 then 1 else 2 * sz

/-- Default constructor `Vector() noexcept`: size 0, capacity 0. -/
def emptyVec : Vec α := ⟨[], 0⟩

/-- `Vector(size_t size)`: arena of exactly `size`, all slots
value-initialized (`d` is the default value of the element type). -/
def mkSized (n : Nat) (d : α) : Vec α := ⟨List.replicate n d, n⟩

/-- Copy constructor `Vector(const Vector& other)`: arena of exactly
`other.size_`, elements copied with `std::uninitialized_copy_n`. -/
def copyCtor (other : Vec α) : Vec α := ⟨other.elems, other.elems.length⟩

/-- `Vector<T>::Swap(Vector& other)`: `data_.Swap(other.data_);
std::swap(size_, other.size_);`.  Returns (`*this`, `other`) after. -/
def swap (a b : Vec α) : Vec α × Vec α := (b, a)

/-- Move constructor `Vector(Vector&& other)`: `*this` starts
default-initialized, then `Swap(other);` and `other.~Vector<T>();` (the
explicit destructor call destroys the zero elements `other` now holds and
leaves its observable state unchanged).  Returns (new object, `other`). -/
def moveCtor (other : Vec α) : Vec α × Vec α :=
  Vec.swap Vec.emptyVec other

/-- `PushBack(const T&)` / `PushBack(T&&)` (same abstract effect): when
`size_ == data_.Capacity()`, allocate an arena of `growCap size_`,
construct the new element at slot `size_`, relocate the old elements with
`UninitializedCopyMove` into slots `[0, size_)`, destroy the old elements
and adopt the arena; otherwise construct in place at slot `size_`.
`++size_` either way. -/
def pushBack (v : Vec α) (x : α) : Vec α :=
  if v.size = v.cap then
    ⟨v.elems ++ [x], growCap v.size⟩
  else
    ⟨v.elems ++ [x], v.cap⟩

/-- `PopBack()`: `std::destroy(data_ + size_ - 1, data_ + size_); size_--;`.
Caller precondition: `size_ > 0`. -/
def popBack (v : Vec α) : Vec α := ⟨v.elems.dropLast, v.cap⟩

/-- `Reserve(new_capacity)`, abstract view: on `new_capacity > Capacity()`
relocate the `size_` live elements into a fresh arena of exactly
`new_capacity`; otherwise do nothing.  (Which old slots the source
destroys before adopting the new arena is the slot-level
`VectorMem.reserve`.) -/
def reserve (v : Vec α) (newCapacity : Nat) : Vec α :=
  if newCapacity > v.cap then ⟨v.elems, newCapacity⟩ else v

/-- `Resize(new_size)`: shrink destroys slots `[new_size, size_)`; grow
calls `Reserve(new_size)` when `Capacity() < new_size`, then
default-constructs slots `[size_, new_size)`; equal size does nothing. -/
def resize (v : Vec α) (newSize : Nat) (d : α) : Vec α :=
  if v.size > newSize then
    ⟨v.elems.take newSize, v.cap⟩
  else if newSize > v.size then
    let w := if v.cap < newSize then v.reserve newSize else v
    ⟨w.elems ++ List.replicate (newSize - w.size) d, w.cap⟩
  else v

/-- `Emplace(pos, args...)` with `position = pos - cbegin()`:

* spare capacity, `position == size_`: construct at slot `size_`;
* spare capacity, interior: move the last element into slot `size_`,
  `std::move_backward` slots `[position, size_ - 1)` one slot right, then
  assign the new element into slot `position`;
* no spare capacity: arena of `growCap size_`, construct the new element
  at slot `position` of it, relocate the prefix `[0, position)` and the
  suffix `[position, size_)` around it, destroy the old elements, adopt.

`++size_`; returns `begin() + position`, i.e. the index `position`. -/
def emplace (v : Vec α) (position : Nat) (x : α) : Vec α × Nat :=
  if v.cap > v.size then
    if position = v.size then
      (⟨v.elems ++ [x], v.cap⟩, position)
    else
      (⟨v.elems.take position ++ x :: v.elems.drop position, v.cap⟩, position)
  else
    (⟨v.elems.take position ++ x :: v.elems.drop position, growCap v.size⟩, position)

/-- `Insert(pos, value)`: `return Emplace(pos, value);` (both overloads). -/
def insert (v : Vec α) (position : Nat) (x : α) : Vec α × Nat :=
  v.emplace position x

/-- `Erase(pos)` with `position = pos - cbegin()`: `std::move` shifts slots
`[position + 1, size_)` one slot left, `size_--`, destroy the vacated last
slot; returns `data_ + position`, i.e. the index `position`. -/
def erase (v : Vec α) (position : Nat) : Vec α × Nat :=
  (⟨v.elems.take position ++ v.elems.drop (position + 1), v.cap⟩, position)

/-- `EmplaceBack(args...)`: identical growth / in-place structure to
`PushBack`, then `return *(data_ + size_ - 1);` — the element at index
`size_ - 1` after the increment. -/
def emplaceBack (v : Vec α) (x : α) : Vec α × Nat :=
  let w : Vec α :=
    if v.size = v.cap then
      ⟨v.elems ++ [x], growCap v.size⟩
    else
      ⟨v.elems ++ [x], v.cap⟩
  (w, w.size - 1)

/-- `operator=(const Vector& rhs)`, body of the `this != &rhs` path: when
`Capacity() >= rhs.size_` the arena is reused — copy-assign the common
prefix, then destroy the excess tail (`size_ > rhs.size_`) or
copy-construct the missing tail (`size_ <= rhs.size_`), and set
`size_ = rhs.size_`; otherwise `Vector<T> temp(rhs); Swap(temp);`. -/
def copyAssign (this_ rhs : Vec α) : Vec α :=
  if rhs.size ≤ this_.cap then
    if this_.size > rhs.size then
      ⟨rhs.elems, this_.cap⟩
    else
      ⟨rhs.elems.take this_.size ++ rhs.elems.drop this_.size, this_.cap⟩
  else
    (Vec.swap this_ (Vec.copyCtor rhs)).1

/-- `operator=(Vector&& rhs)`, body of the `this != &rhs` path:
`Swap(rhs);`.  Returns (`*this`, `rhs`) after. -/
def moveAssign (this_ rhs : Vec α) : Vec α × Vec α :=
  Vec.swap this_ rhs

/-- `operator=(const Vector& rhs)` including the guard `if(this != &rhs)`;
`isSelf` is the pointer-identity test `this == &rhs` (when it is `true`,
`rhs` is the same object as `this_`). -/
def copyAssignOp (isSelf : Bool) (this_ rhs : Vec α) : Vec α :=
  if isSelf then this_ else Vec.copyAssign this_ rhs

/-- `operator=(Vector&& rhs)` including the guard `if(this != &rhs)`. -/
def moveAssignOp (isSelf : Bool) (this_ rhs : Vec α) : Vec α × Vec α :=
  if isSelf then (this_, rhs) else Vec.moveAssign this_ rhs

/-- The representation invariant of `Vector<T>`: `size_ ≤ Capacity()`
(the model stores in `elems` exactly the live elements of slots
`[0, size_)`; slots `[size_, cap)` are raw). -/
def Inv (v : Vec α) : Prop := v.size ≤ v.cap

instance (v : Vec α) : Decidable v.Inv := by
  unfold Inv; infer_instance

end Vec

/-! ## Fallible element copies, for the exception-safety claim

`copy : α → Option α` is the copy constructor of the element type `T`;
`none` models a thrown exception. -/

/-- `std::uninitialized_copy_n` with a fallible element copy: copies left
to right, stopping at the first failure (the guard of
`uninitialized_copy_n` destroys the already-constructed prefix and
rethrows, so nothing of a failed run survives). -/
def copyN (copy : α → Option α) : List α → Option (List α)
  | [] => some []
  | x :: xs =>
    match copy x with
    | none => none
    | some y =>
      match copyN copy xs with
      | none => none
      | some ys => some (y :: ys)

/-- Copy constructor `Vector(const Vector& other)` with a fallible element
copy: allocate exactly `other.size_`, copy the elements; on failure the
partially built object is torn down and the exception propagates. -/
def copyCtorF (copy : α → Option α) (other : Vec α) : Option (Vec α) :=
  match copyN copy other.elems with
  | none => none
  | some l => some ⟨l, other.size⟩

/-- `operator=(const Vector& rhs)` in the `Capacity() < rhs.size_` branch,
with a fallible element copy.  The source runs `Vector<T> temp(rhs);`
first — a statement that constructs a separate object and never touches
`*this` — and only then the `noexcept` `Swap(temp);`.  An `error` result
carries the observable state of `*this` at the moment the exception
propagates to the caller. -/
def copyAssignGrow (copy : α → Option α) (this_ rhs : Vec α) :
    Except (Vec α) (Vec α) :=
  match copyCtorF copy rhs with
  | none => .error this_
  | some temp => .ok (Vec.swap this_ temp).1

/-! ## Operation sequences -/

/-- One mutating operation of `Vector<T>`, with its arguments. -/
inductive Op (α : Type) where
  | push (x : α)
  | pop
  | ins (position : Nat) (x : α)
  | er (position : Nat)
  | res (newSize : Nat) (d : α)
  | reserveOp (newCapacity : Nat)
  | assignCopy (rhs : Vec α)
  | assignMove (rhs : Vec α)
  | swapWith (other : Vec α)

/-- Effect of one operation on the state of `*this`. -/
def Op.apply (v : Vec α) : Op α → Vec α
  | .push x => v.pushBack x
  | .pop => v.popBack
  | .ins p x => (v.insert p x).1
  | .er p => (v.erase p).1
  | .res n d => v.resize n d
  | .reserveOp n => v.reserve n
  | .assignCopy rhs => Vec.copyAssign v rhs
  | .assignMove rhs => (Vec.moveAssign v rhs).1
  | .swapWith o => (Vec.swap v o).1

/-- Run a sequence of operations left to right. -/
def applyOps (v : Vec α) : List (Op α) → Vec α
  | [] => v
  | op :: ops => applyOps (op.apply v) ops

/-- Every other `Vector` handed to an operation is itself a well-formed
vector (it satisfies `Vec.Inv`, as every reachable `Vector<T>` does). -/
def Op.wf : Op α → Bool
  | .assignMove rhs => decide rhs.Inv
  | .swapWith o => decide o.Inv
  | _ => true

/-- All operations of a sequence are well-formed in the sense of `Op.wf`. -/
def opsWF (ops : List (Op α)) : Bool := ops.all Op.wf

/-- A `PushBack` or `PopBack` call, for the stack-discipline claim. -/
inductive PP (α : Type) where
  | push (x : α)
  | pop

/-- Run a sequence of `PushBack` / `PopBack` calls. -/
def ppApply (v : Vec α) : List (PP α) → Vec α
  | [] => v
  | .push x :: ops => ppApply (v.pushBack x) ops
  | .pop :: ops => ppApply v.popBack ops

/-- The caller precondition of `PopBack`: every `pop` of the sequence runs
on a state with `size_ > 0`. -/
def ppValid (v : Vec α) : List (PP α) → Bool
  | [] => true
  | .push x :: ops => ppValid (v.pushBack x) ops
  | .pop :: ops => decide (0 < v.size) && ppValid v.popBack ops

/-- Number of `push` calls in a sequence. -/
def countPush : List (PP α) → Nat
  | [] => 0
  | .push _ :: ops => countPush ops + 1
  | .pop :: ops => countPush ops

/-- Number of `pop` calls in a sequence. -/
def countPop : List (PP α) → Nat
  | [] => 0
  | .push _ :: ops => countPop ops
  | .pop :: ops => countPop ops + 1

/-! ## Helper lemmas -/

theorem take_insert_self (l : List α) (p : Nat) (x : α) (hp : p ≤ l.length) :
    (l.take p ++ x :: l.drop p).take p = l.take p :=
  List.take_left' (by simp [List.length_take]; omega)

theorem drop_insert_self (l : List α) (p : Nat) (x : α) (hp : p ≤ l.length) :
    (l.take p ++ x :: l.drop p).drop (p + 1) = l.drop p := by
  have h2 : l.take p ++ x :: l.drop p = (l.take p ++ [x]) ++ l.drop p := by simp
  rw [h2]
  exact List.drop_left' (by simp [List.length_take]; omega)

theorem getElem?_insert_self (l : List α) (p : Nat) (x : α) (hp : p ≤ l.length) :
    (l.take p ++ x :: l.drop p)[p]? = some x := by
  rw [List.getElem?_append_right (by simp [List.length_take])]
  simp [List.length_take, Nat.min_eq_left hp]

theorem growCap_gt (sz : Nat) : sz + 1 ≤ Vec.growCap sz := by
  unfold Vec.growCap; split <;> omega

theorem pushBack_elems (v : Vec α) (x : α) : (v.pushBack x).elems = v.elems ++ [x] := by
  unfold Vec.pushBack; split <;> rfl

theorem pushBack_size (v : Vec α) (x : α) : (v.pushBack x).size = v.size + 1 := by
  simp [Vec.size, pushBack_elems]

theorem popBack_elems (v : Vec α) : v.popBack.elems = v.elems.dropLast := rfl

theorem popBack_size (v : Vec α) : v.popBack.size = v.size - 1 := by
  simp [Vec.size, Vec.popBack]

theorem emplace_elems (v : Vec α) (p : Nat) (x : α) (hp : p ≤ v.size) :
    (v.emplace p x).1.elems = v.elems.take p ++ x :: v.elems.drop p := by
  unfold Vec.emplace
  split
  · split
    · rename_i hps
      simp only [Vec.size] at hps
      subst hps
      simp
    · rfl
  · rfl

theorem emplace_snd (v : Vec α) (p : Nat) (x : α) : (v.emplace p x).2 = p := by
  unfold Vec.emplace
  split
  · split <;> rfl
  · rfl

theorem emplaceBack_elems (v : Vec α) (x : α) :
    (v.emplaceBack x).1.elems = v.elems ++ [x] ∧ (v.emplaceBack x).2 = v.elems.length := by
  unfold Vec.emplaceBack
  split <;> simp [Vec.size]

theorem pushBack_inv (v : Vec α) (x : α) (hv : v.Inv) : (v.pushBack x).Inv := by
  have h1 := growCap_gt v.size
  simp only [Vec.Inv, Vec.size, Vec.pushBack] at *
  split <;> simp_all <;> omega

theorem popBack_inv (v : Vec α) (hv : v.Inv) : v.popBack.Inv := by
  simp only [Vec.Inv, Vec.size, Vec.popBack, List.length_dropLast] at *
  omega

theorem emplace_inv (v : Vec α) (p : Nat) (x : α) (hv : v.Inv) : (v.emplace p x).1.Inv := by
  have h1 := growCap_gt v.size
  simp only [Vec.Inv, Vec.size, Vec.emplace] at *
  split
  · split <;> simp_all [List.length_take, List.length_drop] <;> omega
  · simp_all [List.length_take, List.length_drop]; omega

theorem erase_inv (v : Vec α) (p : Nat) (hv : v.Inv) : (v.erase p).1.Inv := by
  simp only [Vec.Inv, Vec.size, Vec.erase] at *
  simp [List.length_take, List.length_drop]
  omega

theorem reserve_inv (v : Vec α) (n : Nat) (hv : v.Inv) : (v.reserve n).Inv := by
  simp only [Vec.Inv, Vec.size, Vec.reserve] at *
  split <;> simp_all <;> omega

theorem resize_inv (v : Vec α) (n : Nat) (d : α) (hv : v.Inv) : (v.resize n d).Inv := by
  simp only [Vec.Inv, Vec.size, Vec.resize, Vec.reserve] at *
  split
  · simp [List.length_take]; omega
  · split
    · split <;> simp_all <;> omega
    · exact hv

theorem copyAssign_inv (this_ rhs : Vec α) : (Vec.copyAssign this_ rhs).Inv := by
  simp only [Vec.Inv, Vec.size, Vec.copyAssign, Vec.swap, Vec.copyCtor]
  split
  · split <;> simp_all [List.length_take, List.length_drop] <;> omega
  · simp

theorem Op.apply_inv (v : Vec α) (op : Op α) (hv : v.Inv) (hop : op.wf = true) :
    (op.apply v).Inv := by
  cases op with
  | push x => exact pushBack_inv v x hv
  | pop => exact popBack_inv v hv
  | ins p x => exact emplace_inv v p x hv
  | er p => exact erase_inv v p hv
  | res n d => exact resize_inv v n d hv
  | reserveOp n => exact reserve_inv v n hv
  | assignCopy rhs => exact copyAssign_inv v rhs
  | assignMove rhs =>
    simp only [Op.wf, decide_eq_true_eq] at hop
    exact hop
  | swapWith o =>
    simp only [Op.wf, decide_eq_true_eq] at hop
    exact hop

theorem copyN_id (copy : α → Option α) (hc : ∀ a, copy a = some a) (l : List α) :
    copyN copy l = some l := by
  induction l with
  | nil => rfl
  | cons x xs ih => simp only [copyN, hc x, ih]

theorem ppApply_size (v : Vec α) (ops : List (PP α)) (h : ppValid v ops = true) :
    (ppApply v ops).size + countPop ops = v.size + countPush ops := by
  induction ops generalizing v with
  | nil => simp [ppApply, countPush, countPop]
  | cons op ops ih =>
    cases op with
    | push x =>
      simp only [ppApply, ppValid, countPush, countPop] at *
      have h2 := ih _ h
      have h3 := pushBack_size v x
      omega
    | pop =>
      simp only [ppApply, ppValid, Bool.and_eq_true, decide_eq_true_eq,
        countPush, countPop] at *
      have h2 := ih _ h.2
      have h3 := popBack_size v
      omega

/-! ## Claim theorems -/

/-- **C1.** The claim says `Reserve(newCapacity)` destroys exactly the
live slots `[0, size_)` of the old arena and never the raw slots
`[size_, old capacity)`.  The source instead runs
`std::destroy_n(data_.GetAddress(), data_.Capacity())`, destroying all
`capacity` slots.  At the reachable state `size_ = 1`, `capacity = 2`
(obtained by `PushBack, PushBack, PopBack` from an empty vector),
`Reserve(3)` therefore invokes the element destructor on the raw slot 1:
undefined behaviour, modelled as `none`.  The variant `reserveClaimed`,
which destroys only `size_` slots as the claim states (and as every other
reallocation site of the source does), succeeds and returns the state the
claim describes. -/
theorem C1_reserve_destroys_raw_slots :
    Vec.popBack (Vec.pushBack (Vec.pushBack (Vec.emptyVec) 0) 1) = (⟨[0], 2⟩ : Vec Nat) ∧
    VectorMem.reserve (⟨[some 0, none], 1⟩ : VectorMem Nat) 3 = none ∧
    VectorMem.reserveClaimed (⟨[some 0, none], 1⟩ : VectorMem Nat) 3 =
      some ⟨[some 0, none, none], 1⟩ := by
  refine ⟨by decide, by decide, by decide⟩

/-- **C2** (counterexample).  The claim says every ownership transfer of a
`RawMemory`, move assignment included, leaves the source with capacity 0
and a null handle.  `operator=(RawMemory&&)` is implemented as `Swap(rhs)`,
so when the destination owns an arena the source ends up holding it:
assigning from an arena of capacity 3 into an arena of capacity 2 leaves
the source with capacity 2 and a non-null buffer. -/
theorem C2_move_assign_source_not_empty :
    ¬ ((RawMem.moveAssign ⟨some 1, 2⟩ ⟨some 2, 3⟩).2.capacity = 0 ∧
       (RawMem.moveAssign ⟨some 1, 2⟩ ⟨some 2, 3⟩).2.buffer = none) := by
  decide

/-- **C2** (amended).  Move construction leaves the source arena empty
(capacity 0, null handle).  Move assignment instead swaps the two arenas:
the source receives the destination's previous buffer and capacity, so
each allocated block still has exactly one owner afterwards and
destruction of the moved-from arena never double-frees. -/
theorem C2_move_transfer :
    ∀ a b : RawMem,
      (RawMem.moveCtor b).1 = b ∧
      (RawMem.moveCtor b).2.capacity = 0 ∧
      (RawMem.moveCtor b).2.buffer = none ∧
      RawMem.moveAssign a b = (b, a) :=
  fun _ _ => ⟨rfl, rfl, rfl, rfl⟩

/-- **C3.** At a capacity-exhausted call (`size_ == Capacity()`), the
arena adopted by the growth step of `PushBack`, `EmplaceBack` and
`Emplace`/`Insert` has capacity `(size_ == 0) ? 1 : 2 * size_`, which
under `size_ = capacity` is exactly `max 1 (2 * capacity)`. -/
theorem C3_growth_capacity (v : Vec α) (x : α) (p : Nat) (h : v.size = v.cap) :
    (v.pushBack x).cap = max 1 (2 * v.cap) ∧
    (v.emplaceBack x).1.cap = max 1 (2 * v.cap) ∧
    (v.emplace p x).1.cap = max 1 (2 * v.cap) ∧
    (v.insert p x).1.cap = max 1 (2 * v.cap) := by
  have hg : Vec.growCap v.size = max 1 (2 * v.cap) := by
    unfold Vec.growCap; split <;> omega
  have hpb : (v.pushBack x).cap = max 1 (2 * v.cap) := by
    unfold Vec.pushBack
    rw [if_pos h]
    exact hg
  have heb : (v.emplaceBack x).1.cap = max 1 (2 * v.cap) := by
    unfold Vec.emplaceBack
    rw [if_pos h]
    exact hg
  have hem : (v.emplace p x).1.cap = max 1 (2 * v.cap) := by
    unfold Vec.emplace
    rw [if_neg (by omega)]
    exact hg
  exact ⟨hpb, heb, hem, hem⟩

/-- Witness for `C3_growth_capacity` at the concrete vector of size 1 and
capacity 1 holding `[5]`. -/
theorem C3_growth_capacity_witness :
    (⟨[5], 1⟩ : Vec Nat).size = (⟨[5], 1⟩ : Vec Nat).cap ∧
    ((Vec.pushBack (⟨[5], 1⟩ : Vec Nat) 7).cap = max 1 (2 * (⟨[5], 1⟩ : Vec Nat).cap) ∧
     (Vec.emplaceBack (⟨[5], 1⟩ : Vec Nat) 7).1.cap = max 1 (2 * (⟨[5], 1⟩ : Vec Nat).cap) ∧
     (Vec.emplace (⟨[5], 1⟩ : Vec Nat) 0 7).1.cap = max 1 (2 * (⟨[5], 1⟩ : Vec Nat).cap) ∧
     (Vec.insert (⟨[5], 1⟩ : Vec Nat) 0 7).1.cap = max 1 (2 * (⟨[5], 1⟩ : Vec Nat).cap)) :=
  ⟨by decide, C3_growth_capacity ⟨[5], 1⟩ 7 0 (by decide)⟩

/-- **C7.** Move-constructing `B` from `A` gives `B` exactly the prior
size and contents of `A` and leaves `A` with size 0 and capacity 0. -/
theorem C7_move_ctor_roundtrip :
    ∀ a : Vec α,
      (Vec.moveCtor a).1 = a ∧
      (Vec.moveCtor a).2.size = 0 ∧
      (Vec.moveCtor a).2.cap = 0 :=
  fun _ => ⟨rfl, rfl, rfl⟩

/-- **C4.** Starting from any state satisfying the representation
invariant `size_ ≤ Capacity()` (with `elems` exactly the live elements of
slots `[0, size_)`), every sequence of `PushBack`, `PopBack`,
`Insert`/`Emplace`, `Erase`, `Resize`, `Reserve`, copy/move assignment and
`Swap` — where every other vector handed to an operation is itself
well-formed — ends in a state satisfying the invariant. -/
theorem C4_invariant_preserved (v : Vec α) (ops : List (Op α))
    (hv : v.Inv) (hops : opsWF ops = true) : (applyOps v ops).Inv := by
  induction ops generalizing v with
  | nil => exact hv
  | cons op ops ih =>
    simp only [opsWF, List.all_cons, Bool.and_eq_true] at hops
    exact ih (op.apply v) (Op.apply_inv v op hv hops.1) hops.2

/-- Witness for `C4_invariant_preserved`: a sequence exercising every
operation, run from the state `[1, 2]` with capacity 3. -/
theorem C4_invariant_preserved_witness :
    (⟨[1, 2], 3⟩ : Vec Nat).Inv ∧
    opsWF [Op.push 9, Op.pop, Op.ins 0 4, Op.er 0, Op.res 5 0,
      Op.reserveOp 11, Op.assignCopy ⟨[7], 1⟩, Op.assignMove ⟨[8], 2⟩,
      Op.swapWith (⟨[], 0⟩ : Vec Nat)] = true ∧
    (applyOps (⟨[1, 2], 3⟩ : Vec Nat)
      [Op.push 9, Op.pop, Op.ins 0 4, Op.er 0, Op.res 5 0,
       Op.reserveOp 11, Op.assignCopy ⟨[7], 1⟩, Op.assignMove ⟨[8], 2⟩,
       Op.swapWith (⟨[], 0⟩ : Vec Nat)]).Inv :=
  ⟨by decide, by decide,
    C4_invariant_preserved ⟨[1, 2], 3⟩ _ (by decide) (by decide)⟩

/-- **C5.** For any position `p ≤ size_`, `Insert(p, x)` followed by
`Erase` at the same position restores the original sequence: the same
size and the same element at every index. -/
theorem C5_insert_erase_roundtrip (v : Vec α) (p : Nat) (x : α) (hp : p ≤ v.size) :
    ((v.insert p x).1.erase p).1.elems = v.elems ∧
    ((v.insert p x).1.erase p).1.size = v.size := by
  have h1 : ((v.insert p x).1.erase p).1.elems = v.elems := by
    show ((v.emplace p x).1.erase p).1.elems = v.elems
    unfold Vec.erase
    simp only
    rw [emplace_elems v p x hp]
    rw [take_insert_self v.elems p x hp, drop_insert_self v.elems p x hp]
    exact List.take_append_drop p v.elems
  exact ⟨h1, by simp only [Vec.size, h1]⟩

/-- Witness for `C5_insert_erase_roundtrip` at `[1, 2, 3]`, position 1. -/
theorem C5_insert_erase_roundtrip_witness :
    1 ≤ (⟨[1, 2, 3], 4⟩ : Vec Nat).size ∧
    ((((⟨[1, 2, 3], 4⟩ : Vec Nat).insert 1 9).1.erase 1).1.elems =
       (⟨[1, 2, 3], 4⟩ : Vec Nat).elems ∧
     (((⟨[1, 2, 3], 4⟩ : Vec Nat).insert 1 9).1.erase 1).1.size =
       (⟨[1, 2, 3], 4⟩ : Vec Nat).size) :=
  ⟨by decide, C5_insert_erase_roundtrip ⟨[1, 2, 3], 4⟩ 1 9 (by decide)⟩

/-- **C6.** When the destination capacity is smaller than the source size,
copy-assignment builds a full temporary copy and swaps it in, so it is
strongly exception-safe: with a fallible element copy it either fails
leaving the destination exactly in its pre-call state, or succeeds with
the destination holding a copy of the source (and, when no element copy
fails, the destination ends element-wise equal to the source, with
capacity exactly the source size). -/
theorem C6_copy_assign_strong_safety (copy : α → Option α) (this_ rhs : Vec α)
    (h : this_.cap < rhs.size) :
    (copyAssignGrow copy this_ rhs = Except.error this_ ∨
      ∃ l, copyN copy rhs.elems = some l ∧
        copyAssignGrow copy this_ rhs = Except.ok ⟨l, rhs.size⟩) ∧
    ((∀ a, copy a = some a) →
      copyAssignGrow copy this_ rhs = Except.ok ⟨rhs.elems, rhs.size⟩) := by
  constructor
  · unfold copyAssignGrow copyCtorF
    cases hc : copyN copy rhs.elems with
    | none => exact Or.inl rfl
    | some l => exact Or.inr ⟨l, rfl, rfl⟩
  · intro hcopy
    unfold copyAssignGrow copyCtorF
    rw [copyN_id copy hcopy rhs.elems]
    rfl

/-- Witness for `C6_copy_assign_strong_safety`: destination of capacity 0,
source `[1, 2]`, a copy constructor that never fails. -/
theorem C6_copy_assign_strong_safety_witness :
    (⟨[], 0⟩ : Vec Nat).cap < (⟨[1, 2], 2⟩ : Vec Nat).size ∧
    ((copyAssignGrow some (⟨[], 0⟩ : Vec Nat) ⟨[1, 2], 2⟩ =
        Except.error (⟨[], 0⟩ : Vec Nat) ∨
      ∃ l, copyN some (⟨[1, 2], 2⟩ : Vec Nat).elems = some l ∧
        copyAssignGrow some (⟨[], 0⟩ : Vec Nat) ⟨[1, 2], 2⟩ =
          Except.ok ⟨l, (⟨[1, 2], 2⟩ : Vec Nat).size⟩) ∧
     ((∀ a : Nat, some a = some a) →
       copyAssignGrow some (⟨[], 0⟩ : Vec Nat) ⟨[1, 2], 2⟩ =
         Except.ok ⟨(⟨[1, 2], 2⟩ : Vec Nat).elems, (⟨[1, 2], 2⟩ : Vec Nat).size⟩)) :=
  ⟨by decide, C6_copy_assign_strong_safety some ⟨[], 0⟩ ⟨[1, 2], 2⟩ (by decide)⟩

/-- **C8.** For every sequence of `PushBack`/`PopBack` calls in which each
`PopBack` runs on a non-empty vector, the final size equals the initial
size plus the number of pushes minus the number of pops; `PushBack`
appends its value after the existing elements (so indexed reads return
pushed values in push order), and `PopBack` removes exactly the most
recently appended element (LIFO: a push immediately followed by a pop is
the identity). -/
theorem C8_push_pop_stack_discipline (v : Vec α) (ops : List (PP α))
    (h : ppValid v ops = true) :
    (ppApply v ops).size = v.size + countPush ops - countPop ops ∧
    (∀ x, (v.pushBack x).elems = v.elems ++ [x]) ∧
    (∀ x, ((v.pushBack x).popBack).elems = v.elems) ∧
    (v.popBack.elems = v.elems.dropLast) := by
  refine ⟨?_, fun x => pushBack_elems v x, fun x => ?_, rfl⟩
  · have h2 := ppApply_size v ops h
    omega
  · rw [popBack_elems, pushBack_elems]
    exact List.dropLast_concat

/-- Witness for `C8_push_pop_stack_discipline`: the valid sequence
`push 5, push 6, pop, push 7, pop, pop, pop` from the state `[1]`. -/
theorem C8_push_pop_stack_discipline_witness :
    ppValid (⟨[1], 2⟩ : Vec Nat)
      [PP.push 5, PP.push 6, PP.pop, PP.push 7, PP.pop, PP.pop, PP.pop] = true ∧
    ((ppApply (⟨[1], 2⟩ : Vec Nat)
        [PP.push 5, PP.push 6, PP.pop, PP.push 7, PP.pop, PP.pop, PP.pop]).size =
      (⟨[1], 2⟩ : Vec Nat).size +
        countPush [PP.push 5, PP.push 6, PP.pop, PP.push 7, PP.pop, PP.pop,
          (PP.pop : PP Nat)] -
        countPop [PP.push 5, PP.push 6, PP.pop, PP.push 7, PP.pop, PP.pop,
          (PP.pop : PP Nat)] ∧
     (∀ x, (Vec.pushBack (⟨[1], 2⟩ : Vec Nat) x).elems =
        (⟨[1], 2⟩ : Vec Nat).elems ++ [x]) ∧
     (∀ x, ((Vec.pushBack (⟨[1], 2⟩ : Vec Nat) x).popBack).elems =
        (⟨[1], 2⟩ : Vec Nat).elems) ∧
     ((⟨[1], 2⟩ : Vec Nat).popBack.elems = (⟨[1], 2⟩ : Vec Nat).elems.dropLast)) :=
  ⟨by decide,
    C8_push_pop_stack_discipline ⟨[1], 2⟩
      [PP.push 5, PP.push 6, PP.pop, PP.push 7, PP.pop, PP.pop, PP.pop] (by decide)⟩

/-- **C9.** Self-assignment leaves the vector unchanged: for a well-formed
vector, both copy-assignment and move-assignment applied to the vector
itself — whatever the outcome of the pointer-identity guard
`this != &rhs` — return the identical state (size, capacity and all
elements). -/
theorem C9_self_assignment_identity (v : Vec α) (hv : v.Inv) :
    (∀ b, Vec.copyAssignOp b v v = v) ∧
    (∀ b, (Vec.moveAssignOp b v v).1 = v) := by
  constructor
  · intro b
    cases b with
    | true => rfl
    | false =>
      show Vec.copyAssign v v = v
      unfold Vec.copyAssign
      have hle : v.size ≤ v.cap := hv
      rw [if_pos hle]
      rw [if_neg (lt_irrefl v.size)]
      show Vec.mk (v.elems.take v.size ++ v.elems.drop v.size) v.cap = v
      rw [Vec.size, List.take_append_drop]
  · intro b
    cases b <;> rfl

/-- Witness for `C9_self_assignment_identity` at the vector `[3]` with
capacity 2. -/
theorem C9_self_assignment_identity_witness :
    (⟨[3], 2⟩ : Vec Nat).Inv ∧
    ((∀ b, Vec.copyAssignOp b (⟨[3], 2⟩ : Vec Nat) ⟨[3], 2⟩ = ⟨[3], 2⟩) ∧
     (∀ b, (Vec.moveAssignOp b (⟨[3], 2⟩ : Vec Nat) ⟨[3], 2⟩).1 = ⟨[3], 2⟩)) :=
  ⟨by decide, C9_self_assignment_identity ⟨[3], 2⟩ (by decide)⟩

/-- **C10.** `Emplace`/`Insert` at position `p ≤ size_` return the index
`p`, where the newly inserted element now lives; `Erase` at position `p`
returns the index `p` (when `p < size_` this is at most the new size, i.e.
an element of the shorter vector or its one-past-the-end position);
`EmplaceBack` returns the element at index `size_ - 1` after the append —
the newly constructed last element. -/
theorem C10_return_values (v : Vec α) (p : Nat) (x : α) (hp : p ≤ v.size) :
    (v.emplace p x).2 = p ∧
    ((v.emplace p x).1.elems)[p]? = some x ∧
    (v.insert p x).2 = p ∧
    (v.erase p).2 = p ∧
    (p < v.size → (v.erase p).2 ≤ (v.erase p).1.size) ∧
    (v.emplaceBack x).2 + 1 = (v.emplaceBack x).1.size ∧
    ((v.emplaceBack x).1.elems)[(v.emplaceBack x).2]? = some x := by
  obtain ⟨hbe, hbi⟩ := emplaceBack_elems v x
  refine ⟨emplace_snd v p x, ?_, emplace_snd v p x, rfl, ?_, ?_, ?_⟩
  · rw [emplace_elems v p x hp]
    exact getElem?_insert_self v.elems p x hp
  · intro hlt
    simp only [Vec.erase, Vec.size, List.length_append, List.length_take,
      List.length_drop, List.length_cons]
    simp only [Vec.size] at hlt
    omega
  · rw [hbi]
    simp [Vec.size, hbe]
  · rw [hbi, hbe]
    rw [List.getElem?_append_right (Nat.le_refl _)]
    simp

/-- Witness for `C10_return_values` at `[1, 2]` with capacity 3,
position 1. -/
theorem C10_return_values_witness :
    1 ≤ (⟨[1, 2], 3⟩ : Vec Nat).size ∧
    (((⟨[1, 2], 3⟩ : Vec Nat).emplace 1 9).2 = 1 ∧
     (((⟨[1, 2], 3⟩ : Vec Nat).emplace 1 9).1.elems)[1]? = some 9 ∧
     ((⟨[1, 2], 3⟩ : Vec Nat).insert 1 9).2 = 1 ∧
     ((⟨[1, 2], 3⟩ : Vec Nat).erase 1).2 = 1 ∧
     (1 < (⟨[1, 2], 3⟩ : Vec Nat).size →
       ((⟨[1, 2], 3⟩ : Vec Nat).erase 1).2 ≤ ((⟨[1, 2], 3⟩ : Vec Nat).erase 1).1.size) ∧
     ((⟨[1, 2], 3⟩ : Vec Nat).emplaceBack 9).2 + 1 =
       ((⟨[1, 2], 3⟩ : Vec Nat).emplaceBack 9).1.size ∧
     (((⟨[1, 2], 3⟩ : Vec Nat).emplaceBack 9).1.elems)[((⟨[1, 2], 3⟩ : Vec Nat).emplaceBack 9).2]? =
       some 9) :=
  ⟨by decide, C10_return_values ⟨[1, 2], 3⟩ 1 9 (by decide)⟩

end AdvVector
